import Mathlib

/-!
Verification development for the ClipVibe video analysis pipeline.

The development shallowly embeds the two Python modules
`services/analyzer.py` (frame sampling, luminance statistics, dominant
color extraction, color temperature estimation, and the `analyze_clip`
orchestrator) and `utils/ffmpeg.py` (frame rate parsing and the duration
fallback chain of the ffprobe metadata normaliser).

Conventions used throughout:
* 8-bit pixel channel samples are `Fin 256`; exact arithmetic is over `ℚ`.
* `numpy` floating point means and the interpolation arithmetic are exact
  rational computations on the inputs in question, so they are modelled
  over `ℚ`; the sole irrational operation, the square root inside
  `np.std`, is modelled with `Real.sqrt`, so contrast is `ℝ`-valued.
* Python's `round` builtin rounds half to even (banker's rounding); it is
  modelled by `roundHalfEven` / `pyRoundTo` below.
* External collaborators (the OpenCV capture handle, `cv2.resize`,
  `cv2.kmeans`, the `uuid` generator) are modelled as oracle functions
  carried by an `Env` record; well-formedness facts about them (for
  example that `cv2.kmeans` returns exactly `k` centers and labels below
  `k`) appear as explicit hypotheses of the theorems that need them.
-/

/-- Python's `round` to an integer: round half to even (banker's rounding). -/
def roundHalfEven {K : Type} [LinearOrderedField K] [FloorRing K] (x : K) : ℤ :=
  if x - ⌊x⌋ < 1 / 2 then ⌊x⌋
  else if 1 / 2 < x - ⌊x⌋ then ⌊x⌋ + 1
  else if Even ⌊x⌋ then ⌊x⌋ else ⌊x⌋ + 1

/-- Python's `round(x, n)` for `n` decimal digits (exact-value semantics). -/
def pyRoundTo {K : Type} [LinearOrderedField K] [FloorRing K] (n : ℕ) (x : K) : K :=
  (roundHalfEven (x * 10 ^ n) : K) / 10 ^ n

/-- `numpy` C-style float-to-int cast: truncation toward zero. -/
def pyTrunc (q : ℚ) : ℤ := if 0 ≤ q then ⌊q⌋ else ⌈q⌉

/-- Arithmetic mean of a list, `sum / length` (as computed by `np.mean`).
Division by zero yields `0`; every use in the analyzer is on a non-empty
list, matching the non-empty guarantees of the Python code. -/
def listMean {K : Type} [DivisionRing K] (l : List K) : K := l.sum / l.length

/-- One decoded pixel: three 8-bit channel samples in OpenCV's BGR order. -/
structure Pixel where
  b : Fin 256
  g : Fin 256
  r : Fin 256
deriving DecidableEq

/-- A decoded frame: a non-empty pixel grid (flattened, row-major). -/
abbrev Frame : Type := { l : List Pixel // l ≠ [] }

/-- A grayscale frame produced by `cv2.cvtColor(..., COLOR_BGR2GRAY)`:
a non-empty list of 8-bit luminance samples. -/
abbrev GrayFrame : Type := { l : List (Fin 256) // l ≠ [] }

/-- OpenCV's fixed-point BGR→GRAY conversion of a single pixel:
`Y = (R*4899 + G*9617 + B*1868 + 2^13) >> 14` (the 14-bit fixed-point
form of `0.299 R + 0.587 G + 0.114 B` used by `cv2.cvtColor`). -/
def bgr2grayPix (p : Pixel) : Fin 256 :=
  ⟨((p.r : ℕ) * 4899 + (p.g : ℕ) * 9617 + (p.b : ℕ) * 1868 + 8192) / 16384, by
    have hr : (p.r : ℕ) ≤ 255 := Nat.lt_succ_iff.mp p.r.isLt
    have hg : (p.g : ℕ) ≤ 255 := Nat.lt_succ_iff.mp p.g.isLt
    have hb : (p.b : ℕ) ≤ 255 := Nat.lt_succ_iff.mp p.b.isLt
    have : (p.r : ℕ) * 4899 + (p.g : ℕ) * 9617 + (p.b : ℕ) * 1868 + 8192 < 256 * 16384 := by
      nlinarith
    exact Nat.div_lt_of_lt_mul this⟩

/-- Per-frame grayscale conversion (`cv2.cvtColor` is per-pixel). -/
def toGray (f : Frame) : GrayFrame :=
  ⟨f.val.map bgr2grayPix, by
    intro h
    exact f.prop (List.map_eq_nil_iff.mp h)⟩

/-- `MAX_SAMPLE_FRAMES` from `analyzer.py`. -/
def MAX_SAMPLE_FRAMES : ℕ := 20

/-- `KMEANS_CLUSTERS` from `analyzer.py`. -/
def KMEANS_CLUSTERS : ℕ := 5

/-- `TEMP_MIN_K` from `analyzer.py`. -/
def TEMP_MIN_K : ℚ := 2500

/-- `TEMP_MAX_K` from `analyzer.py`. -/
def TEMP_MAX_K : ℚ := 10000

/-- `TEMP_RATIO_LOW` from `analyzer.py`. -/
def TEMP_RATIO_LOW : ℚ := 0.8

/-- `TEMP_RATIO_HIGH` from `analyzer.py`. -/
def TEMP_RATIO_HIGH : ℚ := 1.2

/-- The decode capability of `cv2.VideoCapture`: the reported
`CAP_PROP_FRAME_COUNT` (an integer, `≤ 0` when unknown) and a
deterministic seek-and-read operation (`cap.set(POS_FRAMES, i)` followed
by `cap.read()`, which reports failure through its return flag). -/
structure VideoCapture where
  frameCount : ℤ
  read : ℕ → Option Frame

/-- The sequential fallback loop of `_sample_frames`: read at `idx`,
stop on the first failed read, advance by 30, with `fuel` the remaining
capacity `MAX_SAMPLE_FRAMES - len(frames)`. -/
def seqFallback (read : ℕ → Option Frame) : ℕ → ℕ → List Frame
  | 0, _ => []
  | fuel + 1, idx =>
    match read idx with
    | none => []
    | some f => f :: seqFallback read fuel (idx + 30)

/-- The evenly spaced index list of `_sample_frames`' primary strategy:
`list(range(0, total_frames, step))[:MAX_SAMPLE_FRAMES]` with
`step = max(1, total_frames // MAX_SAMPLE_FRAMES)`.
(`range(0, stop, step)` is `List.range' 0 ⌈stop/step⌉ step`.) -/
def frameIndices (total : ℕ) : List ℕ :=
  let step := max 1 (total / MAX_SAMPLE_FRAMES)
  (List.range' 0 ((total + step - 1) / step) step).take MAX_SAMPLE_FRAMES

/-- `_sample_frames` from `analyzer.py`. -/
def sample_frames (cap : VideoCapture) : List Frame :=
  if cap.frameCount ≤ 0 then
    seqFallback cap.read MAX_SAMPLE_FRAMES 0
  else
    (frameIndices cap.frameCount.toNat).filterMap cap.read

/-- Mean of a gray frame's samples (`np.mean(f)`), as an exact rational. -/
def grayMean (f : GrayFrame) : ℚ :=
  listMean (f.val.map (fun x : Fin 256 => ((x : ℕ) : ℚ)))

/-- `_compute_brightness` from `analyzer.py`. -/
def compute_brightness (gray_frames : List GrayFrame) : ℚ :=
  pyRoundTo 4 (listMean (gray_frames.map (fun f => grayMean f / 255)))

/-- Population variance of a gray frame (`np.std` squared), exact in `ℚ`. -/
def grayVar (f : GrayFrame) : ℚ :=
  listMean (f.val.map (fun x : Fin 256 => (((x : ℕ) : ℚ) - grayMean f) ^ 2))

/-- `_compute_contrast` from `analyzer.py`; `np.std` is the square root
of the population variance, hence the value lives in `ℝ`. -/
noncomputable def compute_contrast (gray_frames : List GrayFrame) : ℝ :=
  pyRoundTo 4 (listMean (gray_frames.map (fun f => Real.sqrt ((grayVar f : ℚ) : ℝ) / 255)))

/-- Mean of a frame's blue channel, `np.mean(frame[:, :, 0])`. -/
def blueMean (f : Frame) : ℚ := listMean (f.val.map (fun p => ((p.b : ℕ) : ℚ)))

/-- Mean of a frame's red channel, `np.mean(frame[:, :, 2])`. -/
def redMean (f : Frame) : ℚ := listMean (f.val.map (fun p => ((p.r : ℕ) : ℚ)))

/-- The per-frame blue/red ratio list built by `_estimate_color_temperature`
(frames whose mean red intensity is not positive are skipped). -/
def frameRatios (frames : List Frame) : List ℚ :=
  frames.filterMap (fun f => if 0 < redMean f then some (blueMean f / redMean f) else none)

/-- `_estimate_color_temperature` from `analyzer.py`. -/
def estimate_color_temperature (frames : List Frame) : ℤ :=
  if frameRatios frames = [] then 5500
  else
    let avg_ratio := listMean (frameRatios frames)
    let t := (avg_ratio - TEMP_RATIO_LOW) / (TEMP_RATIO_HIGH - TEMP_RATIO_LOW)
    let kelvin := 3000 + t * (8000 - 3000)
    roundHalfEven (max TEMP_MIN_K (min TEMP_MAX_K kelvin))

/-- A single-frame batch whose pixels all equal the given BGR triple
(used to realise the concrete ratio test points of the spec). -/
def constFrame (b g r : Fin 256) : Frame := ⟨[⟨b, g, r⟩], by simp⟩

/-- An RGB color sample / cluster center as exact rationals (the code
works in `float32`, whose values on this data are exact small rationals). -/
def Rgb : Type := ℚ × ℚ × ℚ

/-- The output of the external clustering capability `cv2.kmeans`:
cluster centers and one label per pooled sample. -/
structure KMeansOut where
  centers : List Rgb
  labels : List ℕ

/-- `cv2.cvtColor(..., COLOR_BGR2RGB)` on one pixel: channel reversal. -/
def bgr2rgb (p : Pixel) : Rgb := (((p.r : ℕ) : ℚ), ((p.g : ℕ) : ℚ), ((p.b : ℕ) : ℚ))

/-- `np.bincount(labels, minlength=minlen)`: occurrence counts for every
value below `max minlen (largest label + 1)`. -/
def bincount (labels : List ℕ) (minlen : ℕ) : List ℕ :=
  (List.range (max minlen (labels.foldr (fun x m => max (x + 1) m) 0))).map
    (fun i => labels.count i)

/-- `np.argsort(-label_counts)` as executed on these 5-element integer
arrays: indices sorted by descending count, ties kept in index order.
(`numpy`'s quicksort runs as an insertion sort on arrays this small,
which is stable; a stable argsort by descending key is exactly a sort of
the index list by the lexicographic key (count descending, index
ascending).) -/
def argsortDesc (counts : List ℕ) : List ℕ :=
  (List.range counts.length).mergeSort
    (fun i j => decide (counts.getD j 0 < counts.getD i 0 ∨
      (counts.getD i 0 = counts.getD j 0 ∧ i ≤ j)))

/-- Hex digit table used to render `%X` output. -/
def hexDigitChar (n : ℕ) : Char :=
  [ '0', '1', '2', '3', '4', '5', '6', '7', '8', '9', 'A', 'B', 'C', 'D', 'E', 'F'].getD n '0'

/-- Python's `f"{n:02X}"` for `n ≤ 255`: exactly two uppercase hex digits. -/
def toHex2 (n : ℕ) : String := ⟨[hexDigitChar (n / 16), hexDigitChar (n % 16)]⟩

/-- One channel of `r, g, b = centers[idx].astype(int)` followed by
`np.clip([r, g, b], 0, 255)`: truncate toward zero, clamp to `[0, 255]`. -/
def clampChan (q : ℚ) : ℕ := (max 0 (min 255 (pyTrunc q))).toNat

/-- The `f"#{r:02X}{g:02X}{b:02X}"` formatting of one (clamped) center. -/
def hexColor (c : Rgb) : String :=
  "#" ++ toHex2 (clampChan c.1) ++ toHex2 (clampChan c.2.1) ++ toHex2 (clampChan c.2.2)

/-- `_extract_dominant_colors` from `analyzer.py`, with the external
`cv2.resize` (to `RESIZE_DIM`) and `cv2.kmeans` capabilities passed as
oracles.  Out-of-range list accesses are totalised with `getD`; the
hypotheses of the theorems below (centers of length `k`, labels below
`k`) put every access in range, as `cv2.kmeans`'s contract guarantees. -/
def extract_dominant_colors (resize : Frame → Frame) (kmeans : List Rgb → ℕ → KMeansOut)
    (frames : List Frame) (k : ℕ) : List String :=
  let all_pixels := frames.flatMap (fun f => (resize f).val.map bgr2rgb)
  let out := kmeans all_pixels k
  let label_counts := bincount out.labels k
  let sorted_indices := argsortDesc label_counts
  sorted_indices.map (fun i => hexColor (out.centers.getD i (0, 0, 0)))

/-- A raised Python exception, modelled as its class name and message
(the granularity at which `analyze_clip`'s three failure signals differ). -/
structure PyErr where
  cls : String
  msg : String
deriving DecidableEq

/-- `FileNotFoundError(f"Video file not found: {file_path}")`. -/
def fileNotFoundErr (file_path : String) : PyErr :=
  ⟨"FileNotFoundError", "Video file not found: " ++ file_path⟩

/-- `ValueError(f"Failed to open video: {file_path}")`. -/
def cannotOpenErr (file_path : String) : PyErr :=
  ⟨"ValueError", "Failed to open video: " ++ file_path⟩

/-- `ValueError(f"No frames could be extracted from: {file_path}")`. -/
def noFramesErr (file_path : String) : PyErr :=
  ⟨"ValueError", "No frames could be extracted from: " ++ file_path⟩

/-- The `ClipAnalysis` result record assembled by `analyze_clip`. -/
structure ClipAnalysis where
  clip_id : String
  brightness : ℚ
  contrast : ℝ
  dominant_colors : List String
  color_temperature : ℤ

/-- The environment of one `analyze_clip` call: the outcome of
`Path(file_path).is_file()`, the outcome of opening the file with
`cv2.VideoCapture` (`none` when `isOpened()` is false), the external
`cv2.resize` and `cv2.kmeans` capabilities, and the string the `uuid4`
generator would produce for this call. -/
structure Env where
  fileExists : Bool
  openResult : Option VideoCapture
  resize : Frame → Frame
  kmeans : List Rgb → ℕ → KMeansOut
  freshUuid : String

/-- Resource events on the decode handle: a successful open
(`cap.isOpened()` true) and `cap.release()`. -/
inductive REvent where
  | acquire : REvent
  | release : REvent
deriving DecidableEq

/-- `analyze_clip` from `analyzer.py`, instrumented with the trace of
resource events on the video handle.  The `try/finally` around
`_sample_frames` releases the handle before the empty-batch check, so
both the error and the success continuation carry the same
`[acquire, release]` trace. -/
noncomputable def analyze_clipT (env : Env) (file_path clip_id : String) :
    List REvent × Except PyErr ClipAnalysis :=
  let cid := if clip_id = "" then env.freshUuid else clip_id
  if env.fileExists = false then ([], .error (fileNotFoundErr file_path))
  else
    match env.openResult with
    | none => ([], .error (cannotOpenErr file_path))
    | some cap =>
      match sample_frames cap with
      | [] => ([.acquire, .release], .error (noFramesErr file_path))
      | f :: fs =>
        let frames := f :: fs
        let gray_frames := frames.map toGray
        ([.acquire, .release], .ok
          { clip_id := cid
            brightness := compute_brightness gray_frames
            contrast := compute_contrast gray_frames
            dominant_colors := extract_dominant_colors env.resize env.kmeans frames KMEANS_CLUSTERS
            color_temperature := estimate_color_temperature frames })

/-- `analyze_clip`'s result (the traced model with the trace projected
away). -/
noncomputable def analyze_clip (env : Env) (file_path clip_id : String) :
    Except PyErr ClipAnalysis :=
  (analyze_clipT env file_path clip_id).2

/-- Python's `str.split(sep)` for a one-character separator, on the
character list of the string (no special-casing, unlike `str.split()`). -/
def splitOnChar (sep : Char) : List Char → List (List Char)
  | [] => [[]]
  | c :: cs =>
    if c = sep then [] :: splitOnChar sep cs
    else
      (c :: (splitOnChar sep cs).headD []) :: (splitOnChar sep cs).tail

/-- Numeric value of a (decimal-digit) character list, most significant
digit first. -/
def natOfDigits (l : List Char) : ℕ :=
  l.foldl (fun acc c => acc * 10 + (c.toNat - Char.toNat '0')) 0

/-- Python's `int(s)` on the decimal strings this code feeds it: an
optional sign followed by one or more digits.  (Python additionally
strips whitespace and allows underscore separators; `ffprobe` rational
fields never contain either, so that behaviour is not modelled.) -/
def parsePyInt (l : List Char) : Option ℤ :=
  if l.head? = some '-' then
    if l.tail ≠ [] ∧ l.tail.all Char.isDigit then some (-(natOfDigits l.tail : ℤ)) else none
  else if l.head? = some '+' then
    if l.tail ≠ [] ∧ l.tail.all Char.isDigit then some (natOfDigits l.tail : ℤ) else none
  else if l ≠ [] ∧ l.all Char.isDigit then some (natOfDigits l : ℤ)
  else none

/-- The unsigned part of Python's `float(s)`: digits, an optional `.`,
optional fraction digits, at least one digit in total. -/
def parsePyFloatCore (cs : List Char) : Option ℚ :=
  let ip := cs.takeWhile Char.isDigit
  let rest := cs.dropWhile Char.isDigit
  if rest = [] then
    if ip = [] then none else some (natOfDigits ip : ℚ)
  else if rest.head? = some '.' ∧ rest.tail.all Char.isDigit ∧ (ip ≠ [] ∨ rest.tail ≠ []) then
    some ((natOfDigits ip : ℚ) + (natOfDigits rest.tail : ℚ) / 10 ^ rest.tail.length)
  else none

/-- Python's `float(s)` on plain decimal notation: an optional sign, an
integer part, an optional `.` and fraction part, at least one digit in
total.  (Exponents, `inf`/`nan` and whitespace stripping are not
modelled; `ffprobe` duration and tag fields are plain decimal.) -/
def parsePyFloat (l : List Char) : Option ℚ :=
  if l.head? = some '-' then (parsePyFloatCore l.tail).map (fun q => -q)
  else if l.head? = some '+' then parsePyFloatCore l.tail
  else parsePyFloatCore l

/-- `_hms_to_seconds` from `ffmpeg.py`: split on `:`, read the first
three parts as floats (`IndexError`/`ValueError` yield `0.0`), and
return `round(h*3600 + m*60 + s, 3)`. -/
def hms_to_seconds (hms : String) : ℚ :=
  match parsePyFloat ((splitOnChar ':' hms.data).getD 0 []),
      parsePyFloat ((splitOnChar ':' hms.data).getD 1 []),
      parsePyFloat ((splitOnChar ':' hms.data).getD 2 []) with
  | some hours, some minutes, some seconds =>
    pyRoundTo 3 (hours * 3600 + minutes * 60 + seconds)
  | _, _, _ => 0

/-- The final `try: return round(float(raw), 3) except: return 0.0` of
`_extract_duration`, applied to a present raw string. -/
def durationOfRaw (raw : String) : ℚ :=
  match parsePyFloat raw.data with
  | some x => pyRoundTo 3 x
  | none => 0

/-- `_extract_duration` from `ffmpeg.py`.  The three arguments are the
optional raw values of `video_stream["duration"]`, `format["duration"]`
and `video_stream["tags"]["DURATION"]` (ffprobe reports all of them as
strings).  `float(None)` raises `TypeError`, which the code catches and
turns into `0.0`. -/
def extract_duration (streamDur fmtDur tagDur : Option String) : ℚ :=
  match streamDur with
  | some raw => durationOfRaw raw
  | none =>
    match fmtDur with
    | some raw => durationOfRaw raw
    | none =>
      match tagDur with
      | some raw =>
        if raw.data ≠ [] ∧ raw.data.contains ':' then hms_to_seconds raw
        else durationOfRaw raw
      | none => 0

/-- `_parse_frame_rate` from `ffmpeg.py`: split on `/`, require exactly
two parts, parse both as ints (a failed unpacking or parse raises
`ValueError`, caught to `0.0`), return `0.0` on a zero denominator and
`round(num / den, 3)` otherwise. -/
def parse_frame_rate (rate_str : String) : ℚ :=
  if (splitOnChar '/' rate_str.data).length = 2 then
    match parsePyInt ((splitOnChar '/' rate_str.data).getD 0 []),
        parsePyInt ((splitOnChar '/' rate_str.data).getD 1 []) with
    | some n, some d => if d = 0 then 0 else pyRoundTo 3 ((n : ℚ) / (d : ℚ))
    | _, _ => 0
  else 0

section RoundingLemmas

variable {K : Type} [LinearOrderedField K] [FloorRing K]

theorem floor_le_roundHalfEven (x : K) : ⌊x⌋ ≤ roundHalfEven x := by
  unfold roundHalfEven
  split_ifs <;> omega

theorem roundHalfEven_le_ceil (x : K) : roundHalfEven x ≤ ⌈x⌉ := by
  have hfc : ⌊x⌋ ≤ ⌈x⌉ := Int.floor_le_ceil x
  have key : ∀ _ : ¬x - ⌊x⌋ < 1 / 2, ⌊x⌋ + 1 ≤ ⌈x⌉ := by
    intro h
    have h1 : (⌊x⌋ : K) < x := by
      have : (0 : K) < 1 / 2 := by norm_num
      linarith [not_lt.mp h]
    have h2 : (⌊x⌋ : K) < (⌈x⌉ : K) := lt_of_lt_of_le h1 (Int.le_ceil x)
    have : ⌊x⌋ < ⌈x⌉ := Int.cast_lt.mp h2
    omega
  unfold roundHalfEven
  split_ifs with h1 h2 h3
  · exact hfc
  · exact key h1
  · exact hfc
  · exact key h1

theorem intCast_le_roundHalfEven {m : ℤ} {x : K} (h : (m : K) ≤ x) :
    m ≤ roundHalfEven x :=
  le_trans (Int.le_floor.mpr h) (floor_le_roundHalfEven x)

theorem roundHalfEven_le_intCast {m : ℤ} {x : K} (h : x ≤ (m : K)) :
    roundHalfEven x ≤ m :=
  le_trans (roundHalfEven_le_ceil x) (Int.ceil_le.mpr h)

theorem abs_roundHalfEven_sub (x : K) : |(roundHalfEven x : K) - x| ≤ 1 / 2 := by
  have hfl : (⌊x⌋ : K) ≤ x := Int.floor_le x
  have hfu : x < ⌊x⌋ + 1 := Int.lt_floor_add_one x
  rw [abs_le]
  unfold roundHalfEven
  split_ifs with h1 h2 h3
  · push_cast
    constructor <;> linarith
  · have h1' := not_lt.mp h1
    push_cast
    constructor <;> linarith
  · have h1' := not_lt.mp h1
    have h2' := not_lt.mp h2
    push_cast
    constructor <;> linarith
  · have h1' := not_lt.mp h1
    have h2' := not_lt.mp h2
    push_cast
    constructor <;> linarith

theorem pyRoundTo_bounds {lo hi : ℤ} (n : ℕ) (x : K)
    (hlo : (lo : K) ≤ x) (hhi : x ≤ (hi : K)) :
    (lo : K) ≤ pyRoundTo n x ∧ pyRoundTo n x ≤ (hi : K) := by
  have hp : (0 : K) < 10 ^ n := by positivity
  have h1 : (lo : K) * 10 ^ n ≤ x * 10 ^ n := by
    exact mul_le_mul_of_nonneg_right hlo (le_of_lt hp)
  have h2 : x * 10 ^ n ≤ (hi : K) * 10 ^ n := by
    exact mul_le_mul_of_nonneg_right hhi (le_of_lt hp)
  have hlo2 : ((lo * 10 ^ n : ℤ) : K) ≤ x * 10 ^ n := by push_cast; exact h1
  have hhi2 : x * 10 ^ n ≤ ((hi * 10 ^ n : ℤ) : K) := by push_cast; exact h2
  have hl := intCast_le_roundHalfEven hlo2
  have hr := roundHalfEven_le_intCast hhi2
  unfold pyRoundTo
  constructor
  · rw [le_div_iff hp]
    calc (lo : K) * 10 ^ n = ((lo * 10 ^ n : ℤ) : K) := by push_cast; ring
    _ ≤ (roundHalfEven (x * 10 ^ n) : K) := by exact_mod_cast hl
  · rw [div_le_iff hp]
    calc (roundHalfEven (x * 10 ^ n) : K) ≤ ((hi * 10 ^ n : ℤ) : K) := by exact_mod_cast hr
    _ = (hi : K) * 10 ^ n := by push_cast; ring

end RoundingLemmas

section MeanLemmas

variable {K : Type} [LinearOrderedField K]

theorem listMean_nonneg {l : List K} (h : ∀ a ∈ l, 0 ≤ a) : 0 ≤ listMean l := by
  unfold listMean
  apply div_nonneg
  · exact List.sum_nonneg h
  · positivity

theorem listMean_le {l : List K} {c : K} (hne : l ≠ []) (h : ∀ a ∈ l, a ≤ c) :
    listMean l ≤ c := by
  unfold listMean
  have hlen : (0 : K) < l.length := by
    have : 0 < l.length := List.length_pos.mpr hne
    exact_mod_cast this
  rw [div_le_iff hlen]
  calc l.sum ≤ l.length • c := List.sum_le_card_nsmul l c h
  _ = (l.length : K) * c := by rw [nsmul_eq_mul]
  _ = c * l.length := by ring

theorem listMean_replicate {k : ℕ} (hk : 0 < k) (a : K) :
    listMean (List.replicate k a) = a := by
  unfold listMean
  rw [List.sum_replicate, List.length_replicate, nsmul_eq_mul]
  have : ((k : K)) ≠ 0 := by
    exact_mod_cast Nat.pos_iff_ne_zero.mp hk
  field_simp

end MeanLemmas

theorem roundHalfEven_intCast {K : Type} [LinearOrderedField K] [FloorRing K] (m : ℤ) :
    roundHalfEven ((m : K)) = m := by
  unfold roundHalfEven
  norm_num

theorem redMean_nonneg (f : Frame) : 0 ≤ redMean f := by
  apply listMean_nonneg
  intro a ha
  obtain ⟨p, _, rfl⟩ := List.mem_map.mp ha
  positivity

theorem frameRatios_constFrame (b g r : Fin 256) (h : 0 < (r : ℕ)) :
    frameRatios [constFrame b g r] = [((b : ℕ) : ℚ) / ((r : ℕ) : ℚ)] := by
  have hr : (0 : ℚ) < ((r : ℕ) : ℚ) := by exact_mod_cast h
  simp [frameRatios, constFrame, blueMean, redMean, listMean, hr]

theorem frameRatios_constFrame_zeroRed (b g : Fin 256) :
    frameRatios [constFrame b g 0] = [] := by
  simp [frameRatios, constFrame, redMean, listMean]

theorem estimate_single_ratio (frames : List Frame) (q : ℚ)
    (h : frameRatios frames = [q]) :
    estimate_color_temperature frames
      = roundHalfEven (max TEMP_MIN_K (min TEMP_MAX_K
          (3000 + (q - TEMP_RATIO_LOW) / (TEMP_RATIO_HIGH - TEMP_RATIO_LOW) * (8000 - 3000)))) := by
  unfold estimate_color_temperature
  rw [h]
  norm_num [listMean]

/-- **C1.** The color temperature estimator forms the per-frame blue/red
mean ratios (skipping exactly the frames whose mean red intensity is
zero), returns the neutral default `5500` when no frame yields a usable
ratio, and otherwise returns a nearest integer (half rounded to even) to
`clamp(3000 + ((r − 0.8) / 0.4) · 5000, 2500, 10000)` where `r` is the
average ratio; in particular single-frame batches with ratios `0.8`,
`1.0`, `1.2`, `2.0` give `3000`, `5500`, `8000`, `10000` (the last
clamped), and an all-zero red channel gives the `5500` default. -/
theorem c1_color_temperature (frames : List Frame) :
    frameRatios frames
        = frames.filterMap
            (fun f => if redMean f ≠ 0 then some (blueMean f / redMean f) else none) ∧
    (frameRatios frames = [] → estimate_color_temperature frames = 5500) ∧
    (frameRatios frames ≠ [] →
      estimate_color_temperature frames
          = roundHalfEven (max 2500 (min 10000
              (3000 + (listMean (frameRatios frames) - 0.8) / 0.4 * 5000))) ∧
      |((estimate_color_temperature frames : ℤ) : ℚ)
          - max 2500 (min 10000
              (3000 + (listMean (frameRatios frames) - 0.8) / 0.4 * 5000))| ≤ 1 / 2) ∧
    estimate_color_temperature [constFrame 4 0 5] = 3000 ∧
    estimate_color_temperature [constFrame 1 0 1] = 5500 ∧
    estimate_color_temperature [constFrame 6 0 5] = 8000 ∧
    estimate_color_temperature [constFrame 2 0 1] = 10000 ∧
    estimate_color_temperature [constFrame 7 3 0] = 5500 := by
  have hc1 : (((1 : Fin 256) : ℕ) : ℚ) = 1 := by
    norm_num [show ((1 : Fin 256) : ℕ) = 1 from rfl]
  have hc2 : (((2 : Fin 256) : ℕ) : ℚ) = 2 := by
    norm_num [show ((2 : Fin 256) : ℕ) = 2 from rfl]
  have hc4 : (((4 : Fin 256) : ℕ) : ℚ) = 4 := by
    norm_num [show ((4 : Fin 256) : ℕ) = 4 from rfl]
  have hc5 : (((5 : Fin 256) : ℕ) : ℚ) = 5 := by
    norm_num [show ((5 : Fin 256) : ℕ) = 5 from rfl]
  have hc6 : (((6 : Fin 256) : ℕ) : ℚ) = 6 := by
    norm_num [show ((6 : Fin 256) : ℕ) = 6 from rfl]
  refine ⟨?_, ?_, ?_, ?_, ?_, ?_, ?_, ?_⟩
  · apply List.filterMap_congr
    intro f _
    have h0 : 0 ≤ redMean f := redMean_nonneg f
    by_cases h : redMean f = 0
    · simp [h]
    · have hpos : 0 < redMean f := lt_of_le_of_ne h0 (Ne.symm h)
      simp [hpos, h]
  · intro h
    simp [estimate_color_temperature, h]
  · intro h
    have harg : max TEMP_MIN_K (min TEMP_MAX_K
        (3000 + (listMean (frameRatios frames) - TEMP_RATIO_LOW)
          / (TEMP_RATIO_HIGH - TEMP_RATIO_LOW) * (8000 - 3000)))
        = max 2500 (min 10000
            (3000 + (listMean (frameRatios frames) - 0.8) / 0.4 * 5000)) := by
      norm_num [TEMP_MIN_K, TEMP_MAX_K, TEMP_RATIO_LOW, TEMP_RATIO_HIGH]
    have heq : estimate_color_temperature frames
        = roundHalfEven (max 2500 (min 10000
            (3000 + (listMean (frameRatios frames) - 0.8) / 0.4 * 5000))) := by
      unfold estimate_color_temperature
      rw [if_neg h]
      show roundHalfEven (max TEMP_MIN_K (min TEMP_MAX_K
          (3000 + (listMean (frameRatios frames) - TEMP_RATIO_LOW)
            / (TEMP_RATIO_HIGH - TEMP_RATIO_LOW) * (8000 - 3000)))) = _
      rw [harg]
    refine ⟨heq, ?_⟩
    rw [heq]
    exact abs_roundHalfEven_sub _
  · have h := frameRatios_constFrame 4 0 5 (by decide)
    rw [hc4, hc5] at h
    rw [estimate_single_ratio _ _ h,
      show max TEMP_MIN_K (min TEMP_MAX_K
          (3000 + ((4 / 5 : ℚ) - TEMP_RATIO_LOW) / (TEMP_RATIO_HIGH - TEMP_RATIO_LOW)
            * (8000 - 3000))) = ((3000 : ℤ) : ℚ) by
        norm_num [TEMP_MIN_K, TEMP_MAX_K, TEMP_RATIO_LOW, TEMP_RATIO_HIGH],
      roundHalfEven_intCast]
  · have h := frameRatios_constFrame 1 0 1 (by decide)
    rw [hc1] at h
    rw [estimate_single_ratio _ _ h,
      show max TEMP_MIN_K (min TEMP_MAX_K
          (3000 + ((1 / 1 : ℚ) - TEMP_RATIO_LOW) / (TEMP_RATIO_HIGH - TEMP_RATIO_LOW)
            * (8000 - 3000))) = ((5500 : ℤ) : ℚ) by
        norm_num [TEMP_MIN_K, TEMP_MAX_K, TEMP_RATIO_LOW, TEMP_RATIO_HIGH],
      roundHalfEven_intCast]
  · have h := frameRatios_constFrame 6 0 5 (by decide)
    rw [hc6, hc5] at h
    rw [estimate_single_ratio _ _ h,
      show max TEMP_MIN_K (min TEMP_MAX_K
          (3000 + ((6 / 5 : ℚ) - TEMP_RATIO_LOW) / (TEMP_RATIO_HIGH - TEMP_RATIO_LOW)
            * (8000 - 3000))) = ((8000 : ℤ) : ℚ) by
        norm_num [TEMP_MIN_K, TEMP_MAX_K, TEMP_RATIO_LOW, TEMP_RATIO_HIGH],
      roundHalfEven_intCast]
  · have h := frameRatios_constFrame 2 0 1 (by decide)
    rw [hc2, hc1] at h
    rw [estimate_single_ratio _ _ h,
      show max TEMP_MIN_K (min TEMP_MAX_K
          (3000 + ((2 / 1 : ℚ) - TEMP_RATIO_LOW) / (TEMP_RATIO_HIGH - TEMP_RATIO_LOW)
            * (8000 - 3000))) = ((10000 : ℤ) : ℚ) by
        norm_num [TEMP_MIN_K, TEMP_MAX_K, TEMP_RATIO_LOW, TEMP_RATIO_HIGH],
      roundHalfEven_intCast]
  · have h := frameRatios_constFrame_zeroRed 7 3
    simp [estimate_color_temperature, h]

/-- Witness for C1: both the defined-fallback hypothesis and the
non-empty-ratios hypothesis are discharged on concrete batches. -/
theorem c1_color_temperature_witness :
    estimate_color_temperature [] = 5500 ∧
    estimate_color_temperature [constFrame 4 0 5]
        = roundHalfEven (max 2500 (min 10000
            (3000 + (listMean (frameRatios [constFrame 4 0 5]) - 0.8) / 0.4 * 5000))) := by
  constructor
  · exact (c1_color_temperature []).2.1 rfl
  · refine ((c1_color_temperature [constFrame 4 0 5]).2.2.1 ?_).1
    rw [frameRatios_constFrame 4 0 5 (by decide)]
    simp

/-- The spec-side description of the fallback loop: walk an explicit
index list, stopping at the first failed read. -/
def collectUntil (read : ℕ → Option Frame) : List ℕ → List Frame
  | [] => []
  | i :: rest =>
    match read i with
    | none => []
    | some f => f :: collectUntil read rest

theorem filter_range_lt (m n : ℕ) :
    (List.range m).filter (fun i => decide (i < n)) = List.range (min m n) := by
  induction m with
  | zero => simp
  | succ m ih =>
    rw [List.range_succ, List.filter_append, ih]
    by_cases h : m < n
    · have h1 : min (m + 1) n = min m n + 1 := by omega
      have h2 : min m n = m := by omega
      simp [h, h1, h2, List.range_succ]
    · have h1 : min (m + 1) n = min m n := by omega
      simp [h, h1]

theorem range'_step_eq_map (step : ℕ) :
    ∀ (n s : ℕ), List.range' s n step = (List.range n).map (fun i => s + i * step) := by
  intro n
  induction n with
  | zero => simp
  | succ n ih =>
    intro s
    rw [List.range'_succ, List.range_succ_eq_map, List.map_cons, ih (s + step),
      List.map_map]
    refine congrArg₂ _ (by omega) ?_
    apply List.map_congr_left
    intro a _
    simp [Function.comp, Nat.succ_eq_add_one]
    ring

theorem mul_lt_iff_lt_ceilDiv {s : ℕ} (hs : 1 ≤ s) (i T : ℕ) :
    i * s < T ↔ i < (T + s - 1) / s := by
  have hmul : (i + 1) * s = i * s + s := by ring
  constructor
  · intro h
    rw [Nat.lt_iff_add_one_le, Nat.le_div_iff_mul_le (by omega : 0 < s), hmul]
    generalize i * s = a at h ⊢
    omega
  · intro h
    rw [Nat.lt_iff_add_one_le, Nat.le_div_iff_mul_le (by omega : 0 < s), hmul] at h
    generalize i * s = a at h ⊢
    omega

/-- The primary-strategy index list equals the claim's description: the
arithmetic progression `0, step, 2·step, …` restricted to the first 20
multiples below `T`. -/
theorem frameIndices_spec (T : ℕ) :
    frameIndices T
      = ((List.range 20).map (fun i => i * max 1 (T / 20))).filter
          (fun v => decide (v < T)) := by
  have hs : 1 ≤ max 1 (T / 20) := le_max_left _ _
  have h0 : frameIndices T
      = (List.range' 0 ((T + max 1 (T / 20) - 1) / max 1 (T / 20)) (max 1 (T / 20))).take 20 :=
    rfl
  rw [h0, range'_step_eq_map, ← List.map_take, List.take_range, List.filter_map]
  simp only [zero_add]
  have hfc : (List.range 20).filter
        ((fun v => decide (v < T)) ∘ (fun i => i * max 1 (T / 20)))
      = (List.range 20).filter
          (fun i => decide (i < (T + max 1 (T / 20) - 1) / max 1 (T / 20))) := by
    apply List.filter_congr
    intro x _
    simp only [Function.comp]
    rw [decide_eq_decide]
    exact mul_lt_iff_lt_ceilDiv hs x T
  rw [hfc, filter_range_lt]

theorem seqFallback_eq_collect (read : ℕ → Option Frame) :
    ∀ (n start : ℕ),
      seqFallback read n start
        = collectUntil read ((List.range n).map (fun i => start + 30 * i)) := by
  intro n
  induction n with
  | zero => intro start; rfl
  | succ n ih =>
    intro start
    have hix : (List.range (n + 1)).map (fun i => start + 30 * i)
        = start :: (List.range n).map (fun i => (start + 30) + 30 * i) := by
      rw [List.range_succ_eq_map, List.map_cons, List.map_map]
      refine congrArg₂ _ (by omega) (List.map_congr_left ?_)
      intro a _
      simp only [Function.comp, Nat.succ_eq_add_one]
      ring
    rw [hix]
    show (match read start with
        | none => []
        | some f => f :: seqFallback read n (start + 30))
      = (match read start with
        | none => []
        | some f => f :: collectUntil read ((List.range n).map (fun i => (start + 30) + 30 * i)))
    cases read start with
    | none => rfl
    | some f => rw [ih (start + 30)]

theorem seqFallback_length_le (read : ℕ → Option Frame) :
    ∀ (n start : ℕ), (seqFallback read n start).length ≤ n := by
  intro n
  induction n with
  | zero => intro start; simp [seqFallback]
  | succ n ih =>
    intro start
    unfold seqFallback
    cases read start with
    | none => simp
    | some f =>
      simp only [List.length_cons]
      exact Nat.succ_le_succ (ih (start + 30))

/-- **C2.** When the reported total frame count `T` is positive the
sampler's index list is exactly the arithmetic progression
`0, step, 2·step, …` with `step = max(1, ⌊T/20⌋)`, truncated to the
first 20 values below `T` (a pure function of `T` — no randomness), and
the batch is the successful reads over those indices in order; when `T`
is unknown or `≤ 0` it reads indices `0, 30, 60, …` until 20 frames are
collected or a read fails; in both strategies the batch length is at
most 20. -/
theorem c2_sample_frames (cap : VideoCapture) :
    (0 < cap.frameCount →
      frameIndices cap.frameCount.toNat
          = ((List.range 20).map (fun i => i * max 1 (cap.frameCount.toNat / 20))).filter
              (fun v => decide (v < cap.frameCount.toNat)) ∧
      sample_frames cap = (frameIndices cap.frameCount.toNat).filterMap cap.read) ∧
    (cap.frameCount ≤ 0 →
      sample_frames cap
          = collectUntil cap.read ((List.range 20).map (fun i => 30 * i))) ∧
    (sample_frames cap).length ≤ 20 := by
  refine ⟨?_, ?_, ?_⟩
  · intro h
    refine ⟨frameIndices_spec _, ?_⟩
    unfold sample_frames
    rw [if_neg (by omega)]
  · intro h
    unfold sample_frames
    rw [if_pos h, seqFallback_eq_collect cap.read MAX_SAMPLE_FRAMES 0]
    show collectUntil cap.read ((List.range MAX_SAMPLE_FRAMES).map (fun i => 0 + 30 * i)) = _
    refine congrArg _ (List.map_congr_left ?_)
    intro a _
    omega
  · unfold sample_frames
    split_ifs with h
    · exact seqFallback_length_le cap.read MAX_SAMPLE_FRAMES 0
    · calc ((frameIndices cap.frameCount.toNat).filterMap cap.read).length
          ≤ (frameIndices cap.frameCount.toNat).length :=
            List.length_filterMap_le _ _
      _ ≤ 20 := List.length_take_le _ _

/-- A concrete 45-frame capture for the C2 witness. -/
def capFixed : VideoCapture := ⟨45, fun _ => some (constFrame 0 0 0)⟩

/-- A concrete unknown-length capture for the C2 witness. -/
def capUnknown : VideoCapture :=
  ⟨0, fun i => if i < 100 then some (constFrame 0 0 0) else none⟩

/-- Witness for C2: both strategy hypotheses discharged on concrete captures. -/
theorem c2_sample_frames_witness :
    (frameIndices capFixed.frameCount.toNat
        = ((List.range 20).map (fun i => i * max 1 (capFixed.frameCount.toNat / 20))).filter
            (fun v => decide (v < capFixed.frameCount.toNat)) ∧
      sample_frames capFixed = (frameIndices capFixed.frameCount.toNat).filterMap capFixed.read) ∧
    sample_frames capUnknown
        = collectUntil capUnknown.read ((List.range 20).map (fun i => 30 * i)) :=
  ⟨(c2_sample_frames capFixed).1 (by decide),
   (c2_sample_frames capUnknown).2.1 (by decide)⟩

theorem pyRoundTo_intCast {K : Type} [LinearOrderedField K] [FloorRing K] (n : ℕ) (m : ℤ) :
    pyRoundTo n ((m : K)) = (m : K) := by
  unfold pyRoundTo
  have h : ((m : K) * 10 ^ n) = (((m * 10 ^ n : ℤ) : K)) := by push_cast; ring
  rw [h, roundHalfEven_intCast]
  push_cast
  have hp : ((10 : K) ^ n) ≠ 0 := by positivity
  field_simp

theorem parsePyInt_no_slash {l : List Char} {n : ℤ} (h : parsePyInt l = some n) :
    '/' ∉ l := by
  intro hm
  cases l with
  | nil => simp at hm
  | cons c t =>
    unfold parsePyInt at h
    simp only [List.head?_cons, List.tail_cons] at h
    rcases List.mem_cons.mp hm with hc | hmt
    · rw [← hc] at h
      rw [if_neg (by decide), if_neg (by decide)] at h
      split_ifs at h with hcond
      exact absurd (List.all_eq_true.mp hcond.2 _ (List.mem_cons_self _ _)) (by decide)
    · by_cases h1 : some c = some '-'
      · rw [if_pos h1] at h
        split_ifs at h with h2
        exact absurd (List.all_eq_true.mp h2.2 _ hmt) (by decide)
      · rw [if_neg h1] at h
        by_cases h3 : some c = some '+'
        · rw [if_pos h3] at h
          split_ifs at h with h4
          exact absurd (List.all_eq_true.mp h4.2 _ hmt) (by decide)
        · rw [if_neg h3] at h
          split_ifs at h with h5
          exact absurd (List.all_eq_true.mp h5.2 _ (List.mem_cons_of_mem _ hmt)) (by decide)

theorem splitOnChar_not_mem {c : Char} {l : List Char} (h : c ∉ l) :
    splitOnChar c l = [l] := by
  induction l with
  | nil => rfl
  | cons x xs ih =>
    have hx : ¬x = c := fun e => h (e ▸ List.mem_cons_self x xs)
    have hxs : c ∉ xs := fun m => h (List.mem_cons_of_mem _ m)
    simp [splitOnChar, hx, ih hxs]

theorem splitOnChar_append {c : Char} {a : List Char} (ha : c ∉ a) (b : List Char) :
    splitOnChar c (a ++ c :: b) = a :: splitOnChar c b := by
  induction a with
  | nil => simp [splitOnChar]
  | cons x xs ih =>
    have hx : ¬x = c := fun e => ha (e ▸ List.mem_cons_self x xs)
    have hxs : c ∉ xs := fun m => ha (List.mem_cons_of_mem _ m)
    simp [splitOnChar, hx, ih hxs]

/-- **C7.** Frame-rate parsing maps `"N/D"` (integer numerator and
denominator, `D ≠ 0`) to `N/D` rounded to 3 decimal digits, and yields
`0.0` on a zero denominator or malformed input; concretely `"30/1" → 30`,
`"30000/1001" → 29.97`, `"0/0" → 0`, and non-rational inputs give `0`. -/
theorem c7_parse_frame_rate :
    (∀ (ns ds : List Char) (n d : ℤ),
      parsePyInt ns = some n → parsePyInt ds = some d → d ≠ 0 →
      parse_frame_rate ⟨ns ++ '/' :: ds⟩ = pyRoundTo 3 ((n : ℚ) / (d : ℚ))) ∧
    (∀ (ns ds : List Char) (n : ℤ),
      parsePyInt ns = some n → parsePyInt ds = some 0 →
      parse_frame_rate ⟨ns ++ '/' :: ds⟩ = 0) ∧
    parse_frame_rate "30/1" = 30 ∧
    parse_frame_rate "30000/1001" = 29.97 ∧
    parse_frame_rate "0/0" = 0 ∧
    parse_frame_rate "abc" = 0 ∧
    parse_frame_rate "1/2/3" = 0 := by
  have hgen : ∀ (ns ds : List Char) (n d : ℤ),
      parsePyInt ns = some n → parsePyInt ds = some d →
      parse_frame_rate ⟨ns ++ '/' :: ds⟩
        = if d = 0 then 0 else pyRoundTo 3 ((n : ℚ) / (d : ℚ)) := by
    intro ns ds n d hn hd
    have hsplit : splitOnChar '/' (String.mk (ns ++ '/' :: ds)).data = [ns, ds] := by
      show splitOnChar '/' (ns ++ '/' :: ds) = [ns, ds]
      rw [splitOnChar_append (parsePyInt_no_slash hn),
        splitOnChar_not_mem (parsePyInt_no_slash hd)]
    unfold parse_frame_rate
    rw [hsplit, if_pos (show ([ns, ds] : List (List Char)).length = 2 from rfl),
      show ([ns, ds].getD 0 [] : List Char) = ns from rfl,
      show ([ns, ds].getD 1 [] : List Char) = ds from rfl, hn, hd]
  have hval : ∀ (str : String) (ns ds : List Char) (n d : ℤ),
      splitOnChar '/' str.data = [ns, ds] →
      parsePyInt ns = some n → parsePyInt ds = some d →
      parse_frame_rate str = if d = 0 then 0 else pyRoundTo 3 ((n : ℚ) / (d : ℚ)) := by
    intro str ns ds n d hsplit hn hd
    unfold parse_frame_rate
    rw [hsplit, if_pos (show ([ns, ds] : List (List Char)).length = 2 from rfl),
      show ([ns, ds].getD 0 [] : List Char) = ns from rfl,
      show ([ns, ds].getD 1 [] : List Char) = ds from rfl, hn, hd]
  refine ⟨?_, ?_, ?_, ?_, ?_, ?_, ?_⟩
  · intro ns ds n d hn hd hdne
    rw [hgen ns ds n d hn hd, if_neg hdne]
  · intro ns ds n hn hd
    rw [hgen ns ds n 0 hn hd, if_pos rfl]
  · rw [hval "30/1" ['3', '0'] ['1'] 30 1 (by decide) (by decide) (by decide),
      if_neg (by decide),
      show (((30 : ℤ) : ℚ) / ((1 : ℤ) : ℚ)) = ((30 : ℤ) : ℚ) by norm_num,
      pyRoundTo_intCast]
    norm_num
  · rw [hval "30000/1001" ['3', '0', '0', '0', '0'] ['1', '0', '0', '1'] 30000 1001
      (by decide) (by decide) (by decide), if_neg (by decide)]
    unfold pyRoundTo
    rw [show ((((30000 : ℤ) : ℚ) / ((1001 : ℤ) : ℚ)) * 10 ^ 3) = 30000000 / 1001 by
      push_cast; ring]
    have hfl : ⌊(30000000 / 1001 : ℚ)⌋ = 29970 := by
      rw [Int.floor_eq_iff]
      constructor <;> norm_num
    unfold roundHalfEven
    rw [hfl]
    norm_num
  · rw [hval "0/0" ['0'] ['0'] 0 0 (by decide) (by decide) (by decide), if_pos rfl]
  · rfl
  · rfl

/-- Witness for C7: the rational-string hypotheses discharged on the
concrete fraction `"7/2"`. -/
theorem c7_parse_frame_rate_witness :
    parse_frame_rate ⟨['7'] ++ '/' :: ['2']⟩ = pyRoundTo 3 (((7 : ℤ) : ℚ) / ((2 : ℤ) : ℚ)) ∧
    parse_frame_rate ⟨['7'] ++ '/' :: ['0']⟩ = 0 :=
  ⟨c7_parse_frame_rate.1 ['7'] ['2'] 7 2 (by decide) (by decide) (by decide),
   c7_parse_frame_rate.2.1 ['7'] ['0'] 7 (by decide) (by decide)⟩

/-- The duration fallback chain falls back only when a field is ABSENT:
a present stream-level value short-circuits the chain whether or not it
parses, and an unparseable present value yields `0.0`.  This refutes the
claim's "absent or unparseable" fallback condition: with stream value
`"abc"` (present, unparseable) and container value `"10.0"`, the code
returns `0.0`, not `10.0`. -/
theorem c6_duration_counterexample :
    extract_duration (some "abc") (some "10.0") none = 0 ∧ (10.0 : ℚ) ≠ 0 := by
  constructor
  · rfl
  · norm_num

/-- **C6** (amended). The duration extraction prefers the stream-level
field, falling back to the container field and then the `HH:MM:SS.mmm`
tag only when the earlier fields are ABSENT; the first present field is
parsed as a float and rounded to 3 digits, with `0.0` (and no further
fallback) when it does not parse; all-absent yields `0.0`.  Concretely:
stream `"12.345"` → `12.345`; stream absent, container `"10.0"` →
`10.0`; both absent, tag `"00:01:05.500"` → `65.5`; all absent → `0.0`. -/
theorem c6_extract_duration :
    (∀ (s : String) (fmtDur tagDur : Option String),
      extract_duration (some s) fmtDur tagDur = durationOfRaw s) ∧
    (∀ (s : String) (tagDur : Option String),
      extract_duration none (some s) tagDur = durationOfRaw s) ∧
    (∀ s : String, extract_duration none none (some s)
        = if s.data ≠ [] ∧ s.data.contains ':' then hms_to_seconds s
          else durationOfRaw s) ∧
    (∀ (x : ℚ) (s : String), parsePyFloat s.data = some x →
      durationOfRaw s = pyRoundTo 3 x) ∧
    (∀ s : String, parsePyFloat s.data = none → durationOfRaw s = 0) ∧
    extract_duration none none none = 0 ∧
    (∀ fmtDur tagDur, extract_duration (some "12.345") fmtDur tagDur = 12.345) ∧
    (∀ tagDur, extract_duration none (some "10.0") tagDur = 10.0) ∧
    extract_duration none none (some "00:01:05.500") = 65.5 := by
  have hraw : ∀ (x : ℚ) (s : String), parsePyFloat s.data = some x →
      durationOfRaw s = pyRoundTo 3 x := by
    intro x s h
    unfold durationOfRaw
    rw [h]
  have h12 : durationOfRaw "12.345" = 12.345 := by
    have hp : parsePyFloat ("12.345").data
        = some ((natOfDigits ['1', '2'] : ℚ) + (natOfDigits ['3', '4', '5'] : ℚ) / 10 ^ 3) :=
      rfl
    rw [hraw _ _ hp, show natOfDigits ['1', '2'] = 12 from by decide,
      show natOfDigits ['3', '4', '5'] = 345 from by decide]
    unfold pyRoundTo
    rw [show (((12 : ℕ) : ℚ) + ((345 : ℕ) : ℚ) / 10 ^ 3) * 10 ^ 3 = ((12345 : ℤ) : ℚ) by
      push_cast; ring, roundHalfEven_intCast]
    norm_num
  have h10 : durationOfRaw "10.0" = 10.0 := by
    have hp : parsePyFloat ("10.0").data
        = some ((natOfDigits ['1', '0'] : ℚ) + (natOfDigits ['0'] : ℚ) / 10 ^ 1) := rfl
    rw [hraw _ _ hp, show natOfDigits ['1', '0'] = 10 from by decide,
      show natOfDigits ['0'] = 0 from by decide]
    unfold pyRoundTo
    rw [show (((10 : ℕ) : ℚ) + ((0 : ℕ) : ℚ) / 10 ^ 1) * 10 ^ 3 = ((10000 : ℤ) : ℚ) by
      push_cast; ring, roundHalfEven_intCast]
    norm_num
  refine ⟨fun s fmtDur tagDur => rfl, fun s tagDur => rfl, fun s => rfl, hraw,
    ?_, rfl, ?_, ?_, ?_⟩
  · intro s h
    unfold durationOfRaw
    rw [h]
  · intro fmtDur tagDur
    show durationOfRaw "12.345" = 12.345
    exact h12
  · intro tagDur
    show durationOfRaw "10.0" = 10.0
    exact h10
  · show (if ("00:01:05.500").data ≠ [] ∧ ("00:01:05.500").data.contains ':'
        then hms_to_seconds "00:01:05.500" else durationOfRaw "00:01:05.500") = 65.5
    rw [if_pos (by constructor <;> decide)]
    have hsplit : splitOnChar ':' ("00:01:05.500").data
        = [['0', '0'], ['0', '1'], ['0', '5', '.', '5', '0', '0']] := by decide
    unfold hms_to_seconds
    rw [hsplit,
      show ([['0', '0'], ['0', '1'], ['0', '5', '.', '5', '0', '0']].getD 0 []
        : List Char) = ['0', '0'] from rfl,
      show ([['0', '0'], ['0', '1'], ['0', '5', '.', '5', '0', '0']].getD 1 []
        : List Char) = ['0', '1'] from rfl,
      show ([['0', '0'], ['0', '1'], ['0', '5', '.', '5', '0', '0']].getD 2 []
        : List Char) = ['0', '5', '.', '5', '0', '0'] from rfl,
      show parsePyFloat ['0', '0'] = some ((natOfDigits ['0', '0'] : ℚ)) from rfl,
      show parsePyFloat ['0', '1'] = some ((natOfDigits ['0', '1'] : ℚ)) from rfl,
      show parsePyFloat ['0', '5', '.', '5', '0', '0']
        = some ((natOfDigits ['0', '5'] : ℚ) + (natOfDigits ['5', '0', '0'] : ℚ) / 10 ^ 3)
        from rfl]
    show pyRoundTo 3 ((natOfDigits ['0', '0'] : ℚ) * 3600 + (natOfDigits ['0', '1'] : ℚ) * 60
      + ((natOfDigits ['0', '5'] : ℚ) + (natOfDigits ['5', '0', '0'] : ℚ) / 10 ^ 3)) = 65.5
    rw [show natOfDigits ['0', '0'] = 0 from by decide,
      show natOfDigits ['0', '1'] = 1 from by decide,
      show natOfDigits ['0', '5'] = 5 from by decide,
      show natOfDigits ['5', '0', '0'] = 500 from by decide]
    unfold pyRoundTo
    rw [show (((0 : ℕ) : ℚ) * 3600 + ((1 : ℕ) : ℚ) * 60
        + (((5 : ℕ) : ℚ) + ((500 : ℕ) : ℚ) / 10 ^ 3)) * 10 ^ 3 = ((65500 : ℤ) : ℚ) by
      push_cast; ring, roundHalfEven_intCast]
    norm_num

/-- Witness for C6: the parse hypotheses of the amended theorem
discharged on the concrete raw string `"3.5"`. -/
theorem c6_extract_duration_witness :
    durationOfRaw "3.5"
        = pyRoundTo 3 ((natOfDigits ['3'] : ℚ) + (natOfDigits ['5'] : ℚ) / 10 ^ 1) ∧
    durationOfRaw "xyz" = 0 :=
  ⟨c6_extract_duration.2.2.2.1 _ "3.5" rfl,
   c6_extract_duration.2.2.2.2.1 "xyz" rfl⟩

theorem pyRoundTo_zero {K : Type} [LinearOrderedField K] [FloorRing K] (n : ℕ) :
    pyRoundTo n (0 : K) = 0 := by
  simpa using @pyRoundTo_intCast K _ _ n 0

theorem listMean_const {K : Type} [LinearOrderedField K] {l : List K} {c : K}
    (hne : l ≠ []) (h : ∀ a ∈ l, a = c) : listMean l = c := by
  have hrep := List.eq_replicate_of_mem h
  rw [hrep, listMean_replicate (by simpa using List.length_pos.mpr hne)]

theorem grayMean_const {f : GrayFrame} {v : Fin 256} (h : ∀ x ∈ f.val, x = v) :
    grayMean f = ((v : ℕ) : ℚ) := by
  unfold grayMean
  apply listMean_const
  · rw [Ne, List.map_eq_nil_iff]
    exact f.prop
  · intro a ha
    obtain ⟨x, hx, rfl⟩ := List.mem_map.mp ha
    rw [h x hx]

theorem grayVar_const {f : GrayFrame} {v : Fin 256} (h : ∀ x ∈ f.val, x = v) :
    grayVar f = 0 := by
  unfold grayVar
  apply listMean_const
  · rw [Ne, List.map_eq_nil_iff]
    exact f.prop
  · intro a ha
    obtain ⟨x, hx, rfl⟩ := List.mem_map.mp ha
    rw [h x hx, grayMean_const h]
    ring

/-- A single-row constant grayscale frame (`n + 1` samples, all `v`). -/
def constGray (v : Fin 256) (n : ℕ) : GrayFrame := ⟨List.replicate (n + 1) v, by simp⟩

/-- The claim's unrounded reading is false on the code: a batch of one
constant frame of gray value 1 has normalized mean intensity `1/255 ≈
0.0039215…`, but `_compute_brightness` rounds to 4 decimal digits and
returns `0.0039 = 39/10000 ≠ 1/255`. -/
theorem c5_brightness_counterexample :
    compute_brightness [constGray 1 0] = 39 / 10000 ∧ (39 / 10000 : ℚ) ≠ 1 / 255 := by
  constructor
  · have hg : grayMean (constGray 1 0) = 1 := by
      rw [@grayMean_const (constGray 1 0) 1 (fun x hx => List.eq_of_mem_replicate hx)]
      norm_num [show ((1 : Fin 256) : ℕ) = 1 from rfl]
    have hmean : listMean ([constGray 1 0].map (fun g => grayMean g / 255)) = 1 / 255 := by
      simp [listMean, hg]
    unfold compute_brightness
    rw [hmean]
    unfold pyRoundTo
    have hfl : ⌊((1 : ℚ) / 255) * 10 ^ 4⌋ = 39 := by
      rw [Int.floor_eq_iff]
      constructor <;> norm_num
    unfold roundHalfEven
    rw [hfl]
    norm_num
  · norm_num

/-- **C5** (amended). Brightness is the mean over frames of each frame's
mean intensity normalized by 255, rounded to 4 decimal digits; contrast
is the mean over frames of each frame's population standard deviation
normalized by 255, rounded to 4 decimal digits; consequently a batch of
all-identical constant frames has contrast `0.0` and brightness equal to
the frame's normalized mean intensity rounded to 4 decimal digits. -/
theorem c5_luminance_statistics (v : Fin 256) (f : GrayFrame) (k : ℕ)
    (hk : 0 < k) (hconst : ∀ x ∈ f.val, x = v) :
    (∀ gfs : List GrayFrame, compute_brightness gfs
        = pyRoundTo 4 (listMean (gfs.map (fun g => grayMean g / 255)))) ∧
    (∀ gfs : List GrayFrame, compute_contrast gfs
        = pyRoundTo 4 (listMean
            (gfs.map (fun g => Real.sqrt ((grayVar g : ℚ) : ℝ) / 255)))) ∧
    compute_contrast (List.replicate k f) = 0 ∧
    compute_brightness (List.replicate k f) = pyRoundTo 4 (((v : ℕ) : ℚ) / 255) := by
  refine ⟨fun gfs => rfl, fun gfs => rfl, ?_, ?_⟩
  · unfold compute_contrast
    rw [List.map_replicate, grayVar_const hconst]
    rw [show ((((0 : ℚ)) : ℝ)) = (0 : ℝ) by norm_num, Real.sqrt_zero, zero_div,
      listMean_replicate hk, pyRoundTo_zero]
  · unfold compute_brightness
    rw [List.map_replicate, grayMean_const hconst, listMean_replicate hk]

/-- Witness for C5: the constant-batch hypotheses discharged on a
two-frame batch of the constant gray frame `[7]`. -/
theorem c5_luminance_statistics_witness :
    compute_contrast (List.replicate 2 (constGray 7 0)) = 0 ∧
    compute_brightness (List.replicate 2 (constGray 7 0))
        = pyRoundTo 4 ((((7 : Fin 256) : ℕ) : ℚ) / 255) := by
  have h := c5_luminance_statistics 7 (constGray 7 0) 2 (by norm_num)
    (fun x hx => List.eq_of_mem_replicate hx)
  exact ⟨h.2.2.1, h.2.2.2⟩

theorem foldr_max_le {k : ℕ} : ∀ {l : List ℕ}, (∀ x ∈ l, x < k) →
    l.foldr (fun x m => max (x + 1) m) 0 ≤ k := by
  intro l
  induction l with
  | nil => intro _; simp
  | cons a t ih =>
    intro h
    simp only [List.foldr_cons]
    have ha := h a (List.mem_cons_self a t)
    have ht := ih (fun x hx => h x (List.mem_cons_of_mem _ hx))
    omega

theorem bincount_length {labels : List ℕ} {k : ℕ} (h : ∀ x ∈ labels, x < k) :
    (bincount labels k).length = k := by
  unfold bincount
  rw [List.length_map, List.length_range]
  have hle := foldr_max_le h
  omega

theorem argsortDesc_length (counts : List ℕ) :
    (argsortDesc counts).length = counts.length := by
  unfold argsortDesc
  rw [List.length_mergeSort, List.length_range]

theorem argsortDesc_perm (counts : List ℕ) :
    (argsortDesc counts).Perm (List.range counts.length) :=
  List.mergeSort_perm (List.range counts.length) _

theorem argsortDesc_pairwise (counts : List ℕ) :
    List.Pairwise (fun i j => counts.getD j 0 < counts.getD i 0 ∨
      (counts.getD i 0 = counts.getD j 0 ∧ i < j)) (argsortDesc counts) := by
  have htrans : ∀ a b c : ℕ,
      decide (counts.getD b 0 < counts.getD a 0 ∨
        (counts.getD a 0 = counts.getD b 0 ∧ a ≤ b)) = true →
      decide (counts.getD c 0 < counts.getD b 0 ∨
        (counts.getD b 0 = counts.getD c 0 ∧ b ≤ c)) = true →
      decide (counts.getD c 0 < counts.getD a 0 ∨
        (counts.getD a 0 = counts.getD c 0 ∧ a ≤ c)) = true := by
    intro a b c hab hbc
    rw [decide_eq_true_eq] at hab hbc ⊢
    omega
  have htotal : ∀ a b : ℕ,
      (decide (counts.getD b 0 < counts.getD a 0 ∨
          (counts.getD a 0 = counts.getD b 0 ∧ a ≤ b)) ||
        decide (counts.getD a 0 < counts.getD b 0 ∨
          (counts.getD b 0 = counts.getD a 0 ∧ b ≤ a))) = true := by
    intro a b
    simp only [Bool.or_eq_true, decide_eq_true_eq]
    omega
  have hs := List.sorted_mergeSort htrans htotal (List.range counts.length)
  have hnd : (argsortDesc counts).Nodup :=
    (argsortDesc_perm counts).nodup_iff.mpr (List.nodup_range _)
  have hand := hs.and hnd
  refine hand.imp ?_
  intro a b hab
  rcases hab with ⟨hle, hne⟩
  rw [decide_eq_true_eq] at hle
  rcases hle with h | ⟨he, hle2⟩
  · exact Or.inl h
  · exact Or.inr ⟨he, lt_of_le_of_ne hle2 hne⟩

theorem clampChan_le (q : ℚ) : clampChan q ≤ 255 := by
  unfold clampChan
  rw [Int.toNat_le]
  have h1 : min 255 (pyTrunc q) ≤ 255 := min_le_left _ _
  have h2 : max 0 (min 255 (pyTrunc q)) ≤ 255 := by omega
  exact_mod_cast h2

theorem hexDigitChar_mem (m : ℕ) :
    hexDigitChar m ∈ ("0123456789ABCDEF").data := by
  by_cases h : m < 16
  · interval_cases m <;> decide
  · unfold hexDigitChar
    rw [List.getD_eq_default _ _ (by simp; omega)]
    decide

theorem hexColor_format (c : Rgb) :
    (hexColor c).data.length = 7 ∧ (hexColor c).data.getD 0 ' ' = '#' ∧
    ∀ ch ∈ (hexColor c).data.tail, ch ∈ ("0123456789ABCDEF").data := by
  unfold hexColor toHex2
  rw [String.data_append, String.data_append, String.data_append]
  refine ⟨rfl, rfl, ?_⟩
  intro ch hch
  simp only [List.cons_append, List.nil_append, List.tail_cons, List.mem_cons,
    List.not_mem_nil, or_false, show ("#").data = ['#'] from rfl] at hch
  rcases hch with rfl | rfl | rfl | rfl | rfl | rfl <;> exact hexDigitChar_mem _

/-- **C4.** For a non-empty frame batch, given the `cv2.kmeans` contract
(exactly 5 centers, labels in `[0, 5)`), the palette extractor returns
exactly 5 strings; they are the clamped-and-hex-formatted centers taken
in the order of a stable descending sort of the cluster populations
(larger populations first, equal populations in cluster index order, a
permutation of the 5 cluster indices); and every returned string is a
7-character `#RRGGBB` string over the uppercase hex digits whose channel
bytes are clamped to `[0, 255]`. -/
theorem c4_dominant_colors (resize : Frame → Frame) (kmeans : List Rgb → ℕ → KMeansOut)
    (frames : List Frame) (hne : frames ≠ [])
    (hcenters :
      (kmeans (frames.flatMap (fun f => (resize f).val.map bgr2rgb)) 5).centers.length = 5)
    (hlabels : ∀ x ∈ (kmeans (frames.flatMap (fun f => (resize f).val.map bgr2rgb)) 5).labels,
      x < 5) :
    (extract_dominant_colors resize kmeans frames 5).length = 5 ∧
    extract_dominant_colors resize kmeans frames 5
        = (argsortDesc (bincount
            (kmeans (frames.flatMap (fun f => (resize f).val.map bgr2rgb)) 5).labels 5)).map
            (fun i => hexColor
              ((kmeans (frames.flatMap (fun f => (resize f).val.map bgr2rgb)) 5).centers.getD i
                (0, 0, 0))) ∧
    (argsortDesc (bincount
        (kmeans (frames.flatMap (fun f => (resize f).val.map bgr2rgb)) 5).labels 5)).Perm
      (List.range 5) ∧
    List.Pairwise (fun i j =>
        (bincount (kmeans (frames.flatMap (fun f => (resize f).val.map bgr2rgb)) 5).labels
            5).getD j 0
          < (bincount (kmeans (frames.flatMap (fun f => (resize f).val.map bgr2rgb)) 5).labels
            5).getD i 0 ∨
        ((bincount (kmeans (frames.flatMap (fun f => (resize f).val.map bgr2rgb)) 5).labels
            5).getD i 0
          = (bincount (kmeans (frames.flatMap (fun f => (resize f).val.map bgr2rgb)) 5).labels
            5).getD j 0 ∧ i < j))
      (argsortDesc (bincount
        (kmeans (frames.flatMap (fun f => (resize f).val.map bgr2rgb)) 5).labels 5)) ∧
    (∀ s ∈ extract_dominant_colors resize kmeans frames 5,
      s.data.length = 7 ∧ s.data.getD 0 ' ' = '#' ∧
      ∀ ch ∈ s.data.tail, ch ∈ ("0123456789ABCDEF").data) ∧
    (∀ q : ℚ, clampChan q ≤ 255) := by
  have hlen : (bincount
      (kmeans (frames.flatMap (fun f => (resize f).val.map bgr2rgb)) 5).labels 5).length = 5 :=
    bincount_length hlabels
  have heq : extract_dominant_colors resize kmeans frames 5
      = (argsortDesc (bincount
          (kmeans (frames.flatMap (fun f => (resize f).val.map bgr2rgb)) 5).labels 5)).map
          (fun i => hexColor
            ((kmeans (frames.flatMap (fun f => (resize f).val.map bgr2rgb)) 5).centers.getD i
              (0, 0, 0))) := rfl
  refine ⟨?_, heq, ?_, ?_, ?_, clampChan_le⟩
  · rw [heq, List.length_map, argsortDesc_length, hlen]
  · have hp := argsortDesc_perm (bincount
      (kmeans (frames.flatMap (fun f => (resize f).val.map bgr2rgb)) 5).labels 5)
    rwa [hlen] at hp
  · exact argsortDesc_pairwise _
  · intro s hs
    rw [heq] at hs
    obtain ⟨i, _, rfl⟩ := List.mem_map.mp hs
    exact hexColor_format _

/-- A concrete clustering oracle for the C4 witness: five zero centers
and labels `[0, 1, 2, 0, 1]`. -/
def kmeansW : List Rgb → ℕ → KMeansOut :=
  fun _ _ => ⟨[(0, 0, 0), (0, 0, 0), (0, 0, 0), (0, 0, 0), (0, 0, 0)], [0, 1, 2, 0, 1]⟩

/-- Witness for C4: the batch and clustering-contract hypotheses
discharged on a one-frame batch and the concrete oracle. -/
theorem c4_dominant_colors_witness :
    (extract_dominant_colors id kmeansW [constFrame 0 0 0] 5).length = 5 :=
  (c4_dominant_colors id kmeansW [constFrame 0 0 0] (by simp) rfl (by decide)).1

theorem analyze_clipT_notfound (env : Env) (p cid : String) (h : env.fileExists = false) :
    analyze_clipT env p cid = ([], .error (fileNotFoundErr p)) := by
  simp [analyze_clipT, h]

theorem analyze_clipT_cannotopen (env : Env) (p cid : String)
    (h1 : env.fileExists = true) (h2 : env.openResult = none) :
    analyze_clipT env p cid = ([], .error (cannotOpenErr p)) := by
  simp [analyze_clipT, h1, h2]

theorem analyze_clipT_noframes (env : Env) (p cid : String) (cap : VideoCapture)
    (h1 : env.fileExists = true) (h2 : env.openResult = some cap)
    (h3 : sample_frames cap = []) :
    analyze_clipT env p cid = ([REvent.acquire, REvent.release], .error (noFramesErr p)) := by
  simp [analyze_clipT, h1, h2, h3]

theorem analyze_clipT_ok (env : Env) (p cid : String) (cap : VideoCapture)
    (f : Frame) (fs : List Frame)
    (h1 : env.fileExists = true) (h2 : env.openResult = some cap)
    (h3 : sample_frames cap = f :: fs) :
    analyze_clipT env p cid = ([REvent.acquire, REvent.release], .ok
      { clip_id := if cid = "" then env.freshUuid else cid
        brightness := compute_brightness ((f :: fs).map toGray)
        contrast := compute_contrast ((f :: fs).map toGray)
        dominant_colors := extract_dominant_colors env.resize env.kmeans (f :: fs)
          KMEANS_CLUSTERS
        color_temperature := estimate_color_temperature (f :: fs) }) := by
  simp [analyze_clipT, h1, h2, h3]

theorem fileNotFoundErr_ne_cannotOpenErr (p : String) :
    fileNotFoundErr p ≠ cannotOpenErr p := by
  intro h
  have hc : ("FileNotFoundError" : String) = "ValueError" := congrArg PyErr.cls h
  exact absurd hc (by decide)

theorem fileNotFoundErr_ne_noFramesErr (p : String) :
    fileNotFoundErr p ≠ noFramesErr p := by
  intro h
  have hc : ("FileNotFoundError" : String) = "ValueError" := congrArg PyErr.cls h
  exact absurd hc (by decide)

theorem cannotOpenErr_ne_noFramesErr (p : String) :
    cannotOpenErr p ≠ noFramesErr p := by
  intro h
  have hm : ('F' : Char) = 'N' := congrArg (fun e : PyErr => e.msg.data.getD 0 ' ') h
  exact absurd hm (by decide)

/-- **C3.** The three failure signals of `analyze_clip` are pairwise
distinct error values and each is raised in exactly the claimed
situation: "file not found" iff the path is not an existing file (and
then no handle event occurs — the check precedes any open attempt),
"cannot open video" iff the file exists but the open fails, and the
empty-batch "unanalyzable video" error iff the video opens but the
sampler returns zero frames.  The two `ValueError`s share the Python
exception class but differ as raised error values (messages). -/
theorem c3_analyze_clip_errors (env : Env) (p cid : String) :
    (analyze_clip env p cid = .error (fileNotFoundErr p) ↔ env.fileExists = false) ∧
    (env.fileExists = false → (analyze_clipT env p cid).1 = []) ∧
    (analyze_clip env p cid = .error (cannotOpenErr p) ↔
      env.fileExists = true ∧ env.openResult = none) ∧
    (analyze_clip env p cid = .error (noFramesErr p) ↔
      env.fileExists = true ∧ ∃ cap, env.openResult = some cap ∧ sample_frames cap = []) ∧
    fileNotFoundErr p ≠ cannotOpenErr p ∧
    fileNotFoundErr p ≠ noFramesErr p ∧
    cannotOpenErr p ≠ noFramesErr p := by
  by_cases hfe : env.fileExists = false
  · unfold analyze_clip
    rw [analyze_clipT_notfound env p cid hfe]
    refine ⟨by simp [hfe], fun _ => rfl, ?_, ?_, fileNotFoundErr_ne_cannotOpenErr p,
      fileNotFoundErr_ne_noFramesErr p, cannotOpenErr_ne_noFramesErr p⟩
    · simp [hfe, fileNotFoundErr_ne_cannotOpenErr p]
    · simp [hfe, fileNotFoundErr_ne_noFramesErr p]
  · have htrue : env.fileExists = true := by
      revert hfe
      cases env.fileExists <;> simp
    cases hor : env.openResult with
    | none =>
      unfold analyze_clip
      rw [analyze_clipT_cannotopen env p cid htrue hor]
      refine ⟨?_, fun _ => rfl, ?_, ?_, fileNotFoundErr_ne_cannotOpenErr p,
        fileNotFoundErr_ne_noFramesErr p, cannotOpenErr_ne_noFramesErr p⟩
      · simp [htrue, (fileNotFoundErr_ne_cannotOpenErr p).symm]
      · simp [htrue, hor]
      · simp [htrue, hor, cannotOpenErr_ne_noFramesErr p]
    | some cap =>
      cases hsf : sample_frames cap with
      | nil =>
        unfold analyze_clip
        rw [analyze_clipT_noframes env p cid cap htrue hor hsf]
        refine ⟨?_, ?_, ?_, ?_, fileNotFoundErr_ne_cannotOpenErr p,
          fileNotFoundErr_ne_noFramesErr p, cannotOpenErr_ne_noFramesErr p⟩
        · simp [htrue, (fileNotFoundErr_ne_noFramesErr p).symm]
        · intro hcontra
          rw [htrue] at hcontra
          exact absurd hcontra (by decide)
        · simp [hor, (cannotOpenErr_ne_noFramesErr p).symm]
        · simp [htrue, hor, hsf]
      | cons f fs =>
        unfold analyze_clip
        rw [analyze_clipT_ok env p cid cap f fs htrue hor hsf]
        refine ⟨?_, ?_, ?_, ?_, fileNotFoundErr_ne_cannotOpenErr p,
          fileNotFoundErr_ne_noFramesErr p, cannotOpenErr_ne_noFramesErr p⟩
        · simp [htrue]
        · intro hcontra
          rw [htrue] at hcontra
          exact absurd hcontra (by decide)
        · simp [htrue, hor]
        · simp [htrue, hor, hsf]

/-- **C9.** Resource trace of `analyze_clip`: when the open never
succeeds (missing file or failed open) no handle event occurs; on every
path that reaches a successfully opened handle — empty-batch failure or
successful analysis — the trace is exactly one acquire followed by one
release (so the handle is released exactly once before the call returns
or raises); and acquires and releases always balance (no leak). -/
theorem c9_resource_release (env : Env) (p cid : String) :
    ((env.fileExists = false ∨ env.openResult = none) → (analyze_clipT env p cid).1 = []) ∧
    (∀ cap : VideoCapture, env.fileExists = true → env.openResult = some cap →
      (analyze_clipT env p cid).1 = [REvent.acquire, REvent.release]) ∧
    (analyze_clipT env p cid).1.count REvent.acquire
      = (analyze_clipT env p cid).1.count REvent.release := by
  by_cases hfe : env.fileExists = false
  · rw [analyze_clipT_notfound env p cid hfe]
    refine ⟨fun _ => rfl, ?_, rfl⟩
    intro cap h1 _
    rw [hfe] at h1
    exact absurd h1 (by decide)
  · have htrue : env.fileExists = true := by
      revert hfe
      cases env.fileExists <;> simp
    cases hor : env.openResult with
    | none =>
      rw [analyze_clipT_cannotopen env p cid htrue hor]
      refine ⟨fun _ => rfl, ?_, rfl⟩
      intro cap _ h2
      exact Option.noConfusion h2
    | some cap =>
      cases hsf : sample_frames cap with
      | nil =>
        rw [analyze_clipT_noframes env p cid cap htrue hor hsf]
        refine ⟨?_, fun _ _ _ => rfl, rfl⟩
        intro hcontra
        rcases hcontra with h | h
        · rw [htrue] at h
          exact absurd h (by decide)
        · exact Option.noConfusion h
      | cons f fs =>
        rw [analyze_clipT_ok env p cid cap f fs htrue hor hsf]
        refine ⟨?_, fun _ _ _ => rfl, rfl⟩
        intro hcontra
        rcases hcontra with h | h
        · rw [htrue] at h
          exact absurd h (by decide)
        · exact Option.noConfusion h

theorem analyze_clip_ok_inv {env : Env} {p cid : String} {a : ClipAnalysis}
    (h : analyze_clip env p cid = .ok a) :
    env.fileExists = true ∧ ∃ cap f fs, env.openResult = some cap ∧
      sample_frames cap = f :: fs ∧
      a = { clip_id := if cid = "" then env.freshUuid else cid
            brightness := compute_brightness ((f :: fs).map toGray)
            contrast := compute_contrast ((f :: fs).map toGray)
            dominant_colors := extract_dominant_colors env.resize env.kmeans (f :: fs)
              KMEANS_CLUSTERS
            color_temperature := estimate_color_temperature (f :: fs) } := by
  by_cases hfe : env.fileExists = false
  · unfold analyze_clip at h
    rw [analyze_clipT_notfound env p cid hfe] at h
    exact absurd h (by simp)
  · have htrue : env.fileExists = true := by
      revert hfe
      cases env.fileExists <;> simp
    cases hor : env.openResult with
    | none =>
      unfold analyze_clip at h
      rw [analyze_clipT_cannotopen env p cid htrue hor] at h
      exact absurd h (by simp)
    | some cap =>
      cases hsf : sample_frames cap with
      | nil =>
        unfold analyze_clip at h
        rw [analyze_clipT_noframes env p cid cap htrue hor hsf] at h
        exact absurd h (by simp)
      | cons f fs =>
        unfold analyze_clip at h
        rw [analyze_clipT_ok env p cid cap f fs htrue hor hsf] at h
        simp only [Except.ok.injEq] at h
        exact ⟨htrue, cap, f, fs, rfl, hsf, h.symm⟩

/-- **C10.** A successfully returned record carries the supplied
`clip_id` unchanged when it is non-empty; an empty `clip_id` is replaced
by the freshly generated UUID string, which (the `uuid4` oracle being
non-empty, as 36-character UUID renderings always are) makes the
returned identifier non-empty. -/
theorem c10_clip_id (env : Env) (p cid : String) (a : ClipAnalysis)
    (h : analyze_clip env p cid = .ok a) :
    (cid ≠ "" → a.clip_id = cid) ∧
    (cid = "" → a.clip_id = env.freshUuid ∧ (env.freshUuid ≠ "" → a.clip_id ≠ "")) := by
  obtain ⟨hfe, cap, f, fs, hor, hsf, ha⟩ := analyze_clip_ok_inv h
  subst ha
  constructor
  · intro hne
    simp [hne]
  · intro heq
    subst heq
    refine ⟨by simp, ?_⟩
    intro hfu
    simpa using hfu

theorem grayMean_nonneg (f : GrayFrame) : 0 ≤ grayMean f := by
  apply listMean_nonneg
  intro a ha
  obtain ⟨x, _, rfl⟩ := List.mem_map.mp ha
  positivity

theorem grayMean_le_255 (f : GrayFrame) : grayMean f ≤ 255 := by
  apply listMean_le
  · rw [Ne, List.map_eq_nil_iff]
    exact f.prop
  · intro a ha
    obtain ⟨x, _, rfl⟩ := List.mem_map.mp ha
    have hx : (x : ℕ) ≤ 255 := Nat.lt_succ_iff.mp x.isLt
    exact_mod_cast hx

theorem compute_brightness_bounds {gfs : List GrayFrame} (h : gfs ≠ []) :
    0 ≤ compute_brightness gfs ∧ compute_brightness gfs ≤ 1 := by
  unfold compute_brightness
  have hmem : ∀ a ∈ gfs.map (fun f => grayMean f / 255), 0 ≤ a ∧ a ≤ 1 := by
    intro a ha
    obtain ⟨f, _, rfl⟩ := List.mem_map.mp ha
    constructor
    · exact div_nonneg (grayMean_nonneg f) (by norm_num)
    · rw [div_le_one (by norm_num)]
      exact grayMean_le_255 f
  have h0 : ((0 : ℤ) : ℚ) ≤ listMean (gfs.map (fun f => grayMean f / 255)) := by
    push_cast
    exact listMean_nonneg (fun a ha => (hmem a ha).1)
  have h1 : listMean (gfs.map (fun f => grayMean f / 255)) ≤ ((1 : ℤ) : ℚ) := by
    push_cast
    exact listMean_le (by rw [Ne, List.map_eq_nil_iff]; exact h)
      (fun a ha => (hmem a ha).2)
  have hb := pyRoundTo_bounds 4 _ h0 h1
  constructor
  · exact_mod_cast hb.1
  · exact_mod_cast hb.2

theorem grayVar_nonneg (f : GrayFrame) : 0 ≤ grayVar f := by
  apply listMean_nonneg
  intro a ha
  obtain ⟨x, _, rfl⟩ := List.mem_map.mp ha
  positivity

theorem grayVar_le_sq (f : GrayFrame) : grayVar f ≤ 255 ^ 2 := by
  apply listMean_le
  · rw [Ne, List.map_eq_nil_iff]
    exact f.prop
  · intro a ha
    obtain ⟨x, _, rfl⟩ := List.mem_map.mp ha
    have hx0 : (0 : ℚ) ≤ ((x : ℕ) : ℚ) := by positivity
    have hx : ((x : ℕ) : ℚ) ≤ 255 := by
      exact_mod_cast Nat.lt_succ_iff.mp x.isLt
    have hm0 := grayMean_nonneg f
    have hm := grayMean_le_255 f
    exact sq_le_sq' (by linarith) (by linarith)

theorem compute_contrast_bounds {gfs : List GrayFrame} (h : gfs ≠ []) :
    0 ≤ compute_contrast gfs ∧ compute_contrast gfs ≤ 1 := by
  unfold compute_contrast
  have hmem : ∀ a ∈ gfs.map (fun f => Real.sqrt ((grayVar f : ℚ) : ℝ) / 255),
      0 ≤ a ∧ a ≤ 1 := by
    intro a ha
    obtain ⟨f, _, rfl⟩ := List.mem_map.mp ha
    constructor
    · positivity
    · rw [div_le_one (by norm_num)]
      have hle : ((grayVar f : ℚ) : ℝ) ≤ ((255 : ℝ)) ^ 2 := by
        exact_mod_cast grayVar_le_sq f
      calc Real.sqrt ((grayVar f : ℚ) : ℝ) ≤ Real.sqrt ((255 : ℝ) ^ 2) :=
            Real.sqrt_le_sqrt hle
      _ = 255 := Real.sqrt_sq (by norm_num)
  have h0 : ((0 : ℤ) : ℝ)
      ≤ listMean (gfs.map (fun f => Real.sqrt ((grayVar f : ℚ) : ℝ) / 255)) := by
    push_cast
    exact listMean_nonneg (fun a ha => (hmem a ha).1)
  have h1 : listMean (gfs.map (fun f => Real.sqrt ((grayVar f : ℚ) : ℝ) / 255))
      ≤ ((1 : ℤ) : ℝ) := by
    push_cast
    exact listMean_le (by rw [Ne, List.map_eq_nil_iff]; exact h)
      (fun a ha => (hmem a ha).2)
  have hb := pyRoundTo_bounds 4 _ h0 h1
  constructor
  · exact_mod_cast hb.1
  · exact_mod_cast hb.2

theorem estimate_color_temperature_bounds (frames : List Frame) :
    2500 ≤ estimate_color_temperature frames ∧
    estimate_color_temperature frames ≤ 10000 := by
  by_cases h : frameRatios frames = []
  · unfold estimate_color_temperature
    rw [if_pos h]
    exact ⟨by decide, by decide⟩
  · have heq : estimate_color_temperature frames
        = roundHalfEven (max TEMP_MIN_K (min TEMP_MAX_K
            (3000 + (listMean (frameRatios frames) - TEMP_RATIO_LOW)
              / (TEMP_RATIO_HIGH - TEMP_RATIO_LOW) * (8000 - 3000)))) := by
      unfold estimate_color_temperature
      rw [if_neg h]
    rw [heq]
    constructor
    · apply intCast_le_roundHalfEven
      exact le_trans (by norm_num [TEMP_MIN_K]) (le_max_left _ _)
    · apply roundHalfEven_le_intCast
      apply max_le
      · norm_num [TEMP_MIN_K]
      · exact le_trans (min_le_left _ _) (by norm_num [TEMP_MAX_K])

theorem extract_dominant_colors_length (resize : Frame → Frame)
    (kmeans : List Rgb → ℕ → KMeansOut) (frames : List Frame)
    (hlabels : ∀ x ∈ (kmeans (frames.flatMap (fun f => (resize f).val.map bgr2rgb)) 5).labels,
      x < 5) :
    (extract_dominant_colors resize kmeans frames 5).length = 5 := by
  have heq : extract_dominant_colors resize kmeans frames 5
      = (argsortDesc (bincount
          (kmeans (frames.flatMap (fun f => (resize f).val.map bgr2rgb)) 5).labels 5)).map
          (fun i => hexColor
            ((kmeans (frames.flatMap (fun f => (resize f).val.map bgr2rgb)) 5).centers.getD i
              (0, 0, 0))) := rfl
  rw [heq, List.length_map, argsortDesc_length, bincount_length hlabels]

/-- The contract of the external `cv2.kmeans` capability: exactly `k`
cluster centers, and one label in `[0, k)` per pooled sample. -/
def kmeansWF (km : List Rgb → ℕ → KMeansOut) : Prop :=
  ∀ (s : List Rgb) (k : ℕ), (km s k).centers.length = k ∧ ∀ x ∈ (km s k).labels, x < k

/-- **C8.** Every `ClipAnalysis` record successfully returned by
`analyze_clip` (under the `cv2.kmeans` contract) has brightness in
`[0, 1]`, contrast in `[0, 1]`, exactly `KMEANS_CLUSTERS = 5` dominant
colors, and an integer color temperature in `[2500, 10000]`. -/
theorem c8_clip_analysis_invariants (env : Env) (p cid : String) (a : ClipAnalysis)
    (hwf : kmeansWF env.kmeans) (h : analyze_clip env p cid = .ok a) :
    0 ≤ a.brightness ∧ a.brightness ≤ 1 ∧
    0 ≤ a.contrast ∧ a.contrast ≤ 1 ∧
    a.dominant_colors.length = 5 ∧
    2500 ≤ a.color_temperature ∧ a.color_temperature ≤ 10000 := by
  obtain ⟨hfe, cap, f, fs, hor, hsf, ha⟩ := analyze_clip_ok_inv h
  subst ha
  have hne : ((f :: fs).map toGray) ≠ [] := by simp
  have hb := compute_brightness_bounds hne
  have hc := compute_contrast_bounds hne
  have ht := estimate_color_temperature_bounds (f :: fs)
  refine ⟨hb.1, hb.2, hc.1, hc.2, ?_, ht.1, ht.2⟩
  exact extract_dominant_colors_length env.resize env.kmeans (f :: fs)
    (fun x hx => (hwf _ 5).2 x hx)

/-- A clustering oracle satisfying the `cv2.kmeans` contract:
`k` zero centers and no labels. -/
def kmeansUniform : List Rgb → ℕ → KMeansOut :=
  fun _ k => ⟨List.replicate k (0, 0, 0), []⟩

theorem kmeansUniform_wf : kmeansWF kmeansUniform := by
  intro s k
  refine ⟨List.length_replicate k _, ?_⟩
  intro x hx
  exact absurd hx (List.not_mem_nil x)

/-- A one-frame capture used by the orchestrator witnesses. -/
def capOne : VideoCapture := ⟨1, fun _ => some (constFrame 0 0 0)⟩

/-- A fully working environment (file exists, video opens, one frame). -/
def envW : Env :=
  { fileExists := true
    openResult := some capOne
    resize := id
    kmeans := kmeansUniform
    freshUuid := "uuid-w" }

/-- An environment whose file does not exist. -/
def envNF : Env :=
  { fileExists := false
    openResult := none
    resize := id
    kmeans := kmeansUniform
    freshUuid := "uuid-w" }

theorem sample_frames_capOne : sample_frames capOne = [constFrame 0 0 0] := by decide

/-- The record `analyze_clip envW "clip.mp4" ""` returns. -/
noncomputable def recW : ClipAnalysis :=
  { clip_id := "uuid-w"
    brightness := compute_brightness ([constFrame 0 0 0].map toGray)
    contrast := compute_contrast ([constFrame 0 0 0].map toGray)
    dominant_colors := extract_dominant_colors envW.resize envW.kmeans [constFrame 0 0 0]
      KMEANS_CLUSTERS
    color_temperature := estimate_color_temperature [constFrame 0 0 0] }

/-- The record `analyze_clip envW "clip.mp4" "abc"` returns. -/
noncomputable def recW2 : ClipAnalysis :=
  { clip_id := "abc"
    brightness := compute_brightness ([constFrame 0 0 0].map toGray)
    contrast := compute_contrast ([constFrame 0 0 0].map toGray)
    dominant_colors := extract_dominant_colors envW.resize envW.kmeans [constFrame 0 0 0]
      KMEANS_CLUSTERS
    color_temperature := estimate_color_temperature [constFrame 0 0 0] }

theorem analyze_clip_envW_empty : analyze_clip envW "clip.mp4" "" = .ok recW := by
  unfold analyze_clip
  rw [analyze_clipT_ok envW "clip.mp4" "" capOne (constFrame 0 0 0) [] rfl rfl
    sample_frames_capOne]
  rfl

theorem analyze_clip_envW_abc : analyze_clip envW "clip.mp4" "abc" = .ok recW2 := by
  unfold analyze_clip
  rw [analyze_clipT_ok envW "clip.mp4" "abc" capOne (constFrame 0 0 0) [] rfl rfl
    sample_frames_capOne]
  rfl

/-- Witness for C3: the file-not-found implication discharged on a
concrete missing-file environment, and the empty-batch condition checked
through the iff on the working environment. -/
theorem c3_analyze_clip_errors_witness :
    (analyze_clipT envNF "clip.mp4" "c").1 = [] ∧
    analyze_clip envNF "clip.mp4" "c" = .error (fileNotFoundErr "clip.mp4") :=
  ⟨(c3_analyze_clip_errors envNF "clip.mp4" "c").2.1 rfl,
   ((c3_analyze_clip_errors envNF "clip.mp4" "c").1).mpr rfl⟩

/-- Witness for C9: both the no-acquire and the acquire-release
implications discharged on concrete environments. -/
theorem c9_resource_release_witness :
    (analyze_clipT envNF "clip.mp4" "c").1 = [] ∧
    (analyze_clipT envW "clip.mp4" "c").1 = [REvent.acquire, REvent.release] :=
  ⟨(c9_resource_release envNF "clip.mp4" "c").1 (Or.inl rfl),
   (c9_resource_release envW "clip.mp4" "c").2.1 capOne rfl rfl⟩

/-- Witness for C10: both the passthrough and the generated-identifier
hypotheses discharged on concrete successful analyses. -/
theorem c10_clip_id_witness :
    recW2.clip_id = "abc" ∧ recW.clip_id = envW.freshUuid ∧ recW.clip_id ≠ "" := by
  have h1 := c10_clip_id envW "clip.mp4" "abc" recW2 analyze_clip_envW_abc
  have h2 := c10_clip_id envW "clip.mp4" "" recW analyze_clip_envW_empty
  exact ⟨h1.1 (by decide), (h2.2 rfl).1, (h2.2 rfl).2 (by decide)⟩

/-- Witness for C8: the kmeans-contract and success hypotheses
discharged on the concrete working environment. -/
theorem c8_clip_analysis_invariants_witness :
    0 ≤ recW.brightness ∧ recW.brightness ≤ 1 ∧
    0 ≤ recW.contrast ∧ recW.contrast ≤ 1 ∧
    recW.dominant_colors.length = 5 ∧
    2500 ≤ recW.color_temperature ∧ recW.color_temperature ≤ 10000 :=
  c8_clip_analysis_invariants envW "clip.mp4" "" recW kmeansUniform_wf
    analyze_clip_envW_empty
